import Mathlib

/-!
Shallow embedding of `openedx/core/lib/call_stack_manager.py`.

The Python module keeps a global ledger `STACK_BOOK` (a defaultdict from a
model-class name to the list of distinct call stacks seen for it), a global
boolean `TRACK_FLAG`, a list `EXCLUDE` of regular expressions used to filter
raw traceback frame lines, the function `capture_call_stack`, two adapter
classes (`CallStackMixin` with `save` and `delete`, `CallStackManager` with
`get_query_set`) and the decorator `donottrack`.

The embedding below models:
  - a raw stack (the result of `traceback.format_stack()`) as a `List String`;
  - the mutable module state (`TRACK_FLAG`, `STACK_BOOK`) as `ModState`,
    threaded explicitly;
  - Python exceptions as `Except PyExc`;
  - the four compiled regular expressions, all of the shape
    caret dot-star BODY dot-star dollar, as lists of character matchers
    (`PatChar`), where the dot inside `python2.7` is the regex wildcard;
  - CPython string primitives used by the code (`split(',')`, `strip()`,
    slicing, `replace`) as structurally recursive functions on `List Char`.
-/

/-- One character of a compiled pattern body: a literal character, or the
regex metacharacter dot.  The strings the module matches against have had
every newline removed, so dot matches any character. -/
inductive PatChar
  | lit : Char → PatChar
  | dot : PatChar
deriving DecidableEq, Repr

/-- Does one pattern character match one input character. -/
def patCharMatches : PatChar → Char → Bool
  | PatChar.lit c, d => c == d
  | PatChar.dot, _ => true

/-- Does the pattern body match the input list character by character starting
at its head (consuming exactly the pattern's length). -/
def patHere : List PatChar → List Char → Bool
  | [], _ => true
  | _ :: _, [] => false
  | p :: ps, c :: cs => patCharMatches p c && patHere ps cs

/-- Does the pattern body match at some position of the input.  For a
newline-free input `s`, `re.match` of caret dot-star BODY dot-star dollar
against `s` succeeds exactly when the BODY matches at some position. -/
def patSomewhere (p : List PatChar) : List Char → Bool
  | [] => patHere p []
  | c :: cs => patHere p (c :: cs) || patSomewhere p cs

/-- Literal pattern body built from a string (every character taken verbatim). -/
def litPat (s : String) : List PatChar := s.toList.map PatChar.lit

/-- The module's compiled `EXCLUDE` list
`['^.*python2.7.*$', '^.*call_stack_manager.*$', '^.*<exec_function>.*$', '^.*exec_code_object.*$']`;
the dot inside `python2.7` is the regex wildcard, everything else is literal. -/
def REGULAR_EXPS : List (List PatChar) :=
  [litPat ("python2") ++ [PatChar.dot] ++ litPat ("7"),
   litPat ("call_stack_manager"),
   litPat ("<exec_function>"),
   litPat ("exec_code_object")]

/-- A frame line is excluded when ANY of the four compiled patterns matches it
(`any(reg.match(frame) for reg in REGULAR_EXPS)`). -/
def excludedFrame (f : String) : Bool :=
  REGULAR_EXPS.any (fun p => patSomewhere p f.toList)

/-- Plain substring occurrence at the head of a character list. -/
def isFrontOf : List Char → List Char → Bool
  | [], _ => true
  | _ :: _, [] => false
  | a :: as, b :: bs => a == b && isFrontOf as bs

/-- Plain substring occurrence anywhere in a character list. -/
def containsSubAux (n : List Char) : List Char → Bool
  | [] => n.isEmpty
  | c :: t => isFrontOf n (c :: t) || containsSubAux n t

/-- Plain substring occurrence between strings (no wildcard), used to state
that a frame whose text carries the tracer's own module name is excluded. -/
def containsSub (needle hay : String) : Bool := containsSubAux needle.toList hay.toList

/-- CPython `str.strip()` restricted to the characters that occur here:
drop whitespace from both ends. -/
def stripL (l : List Char) : List Char :=
  ((l.dropWhile Char.isWhitespace).reverse.dropWhile Char.isWhitespace).reverse

/-- CPython `str.split(',')`: split at every comma, keeping empty pieces, on
character lists.  The accumulator holds the current piece reversed. -/
def splitCommaAux : List Char → List Char → List (List Char)
  | [], acc => [acc.reverse]
  | c :: t, acc => if c == ',' then acc.reverse :: splitCommaAux t [] else splitCommaAux t (c :: acc)

/-- CPython `stack.replace("\n", "")`: remove every newline character. -/
def cleanFrame (s : String) : String :=
  String.mk (s.toList.filter (fun c => c != '\x0a'))

/-- A normalized frame: `(file path, line number text, context text)`. -/
abbrev Frame := String × String × String

/-- A normalized call stack: a list of frames. -/
abbrev Stack := List Frame

/-- The ledger `STACK_BOOK`: an association list from a model-class name to
the list of distinct stacks recorded for it (a `defaultdict(list)` whose
absent keys read as the empty list). -/
abbrev Book := List (String × List Stack)

/-- Reading `STACK_BOOK[c]`: the stored list, or the defaultdict default `[]`. -/
def bookGet : Book → String → List Stack
  | [], _ => []
  | (k, v) :: t, c => if k == c then v else bookGet t c

/-- Writing `STACK_BOOK[c] = v`: replace the binding for `c`, or append a new
binding at the end. -/
def bookSet : Book → String → List Stack → Book
  | [], c, v => [(c, v)]
  | (k, w) :: t, c, v => if k == c then (k, v) :: t else (k, w) :: bookSet t c v

/-- The duplicate-avoiding insertion of `capture_call_stack`
(`if temp_call_stack not in STACK_BOOK[current_model]: append`), returning
whether the stack was new (exactly when the `log.info` branch runs) together
with the updated ledger.  Reading `STACK_BOOK[current_model]` materialises the
key in the defaultdict, hence the `bookSet` on the duplicate path as well. -/
def record (book : Book) (c : String) (s : Stack) : Bool × Book :=
  let entry := bookGet book c
  if s ∈ entry then (false, bookSet book c entry)
  else (true, bookSet book c (entry ++ [s]))

/-- Parsing of one (newline-free) raw frame line, as in the list comprehension
`(frame.split(',')[0].strip()[6:-1], frame.split(',')[1].strip()[6:], frame.split(',')[2].strip()[3:])`.
Indexing `split(',')[1]` or `[2]` raises `IndexError` when the line holds
fewer than two commas, modelled by `none`; the slices themselves never raise. -/
def parseFrame (frame : String) : Option Frame :=
  match splitCommaAux frame.toList [] with
  | p0 :: p1 :: p2 :: _ =>
      some (String.mk (((stripL p0).drop 6).dropLast),
            String.mk ((stripL p1).drop 6),
            String.mk ((stripL p2).drop 3))
  | _ => none

/-- Parsing of a whole list of kept frame lines, left to right; the first
failing line aborts the comprehension (the `IndexError` propagates before the
ledger is touched). -/
def parseFrames : List String → Option (List Frame)
  | [] => some []
  | f :: t =>
      match parseFrame f, parseFrames t with
      | some fr, some rest => some (fr :: rest)
      | _, _ => none

/-- The whole `temp_call_stack` comprehension: remove newlines from every raw
frame, keep the frames matched by no exclusion pattern, in order, and parse
each kept frame. -/
def normalizeStack (raw : List String) : Option Stack :=
  parseFrames ((raw.map cleanFrame).filter (fun f => !excludedFrame f))

/-- A Python exception in this model: the `IndexError` raised by the frame
parsing, or any other exception (tagged by a number) raised by wrapped code. -/
inductive PyExc
  | indexError : PyExc
  | other : Nat → PyExc
deriving DecidableEq, Repr

deriving instance DecidableEq for Except

/-- The module's mutable global state: `TRACK_FLAG` and `STACK_BOOK`. -/
structure ModState where
  track_flag : Bool
  stack_book : Book
deriving DecidableEq, Repr

/-- The body of `capture_call_stack(current_model)`, given the raw frames that
`traceback.format_stack()` returned.  It builds `temp_call_stack` and inserts
it into the ledger; the `Bool` result records whether the stack was new.  Note
that the body never consults `track_flag`.  When parsing raises, the ledger is
still untouched (the comprehension runs before the insertion). -/
def capture_call_stack (current_model : String) (raw : List String) (st : ModState) :
    ModState × Except PyExc Bool :=
  match normalizeStack raw with
  | none => (st, Except.error PyExc.indexError)
  | some temp =>
      ({ st with stack_book := (record st.stack_book current_model temp).2 },
       Except.ok (record st.stack_book current_model temp).1)

/-- `CallStackMixin.save`: run `capture_call_stack(str(type(self)))`, then
return `super().save(*args, **kwargs)`.  `underlying` is the superclass
method, depending only on its own arguments; an exception escaping the capture
propagates before the superclass method runs. -/
def CallStackMixin.save {α β : Type} (modelName : String) (raw : List String)
    (underlying : α → Except PyExc β) (a : α) (st : ModState) :
    ModState × Except PyExc β :=
  let r := capture_call_stack modelName raw st
  match r.2 with
  | Except.ok _ => (r.1, underlying a)
  | Except.error e => (r.1, Except.error e)

/-- `CallStackMixin.delete`: same shape as `save` over the superclass
`delete`. -/
def CallStackMixin.delete {α β : Type} (modelName : String) (raw : List String)
    (underlying : α → Except PyExc β) (a : α) (st : ModState) :
    ModState × Except PyExc β :=
  let r := capture_call_stack modelName raw st
  match r.2 with
  | Except.ok _ => (r.1, underlying a)
  | Except.error e => (r.1, Except.error e)

/-- `CallStackManager.get_query_set`: run `capture_call_stack(str(self.model))`,
then return the superclass queryset. -/
def CallStackManager.get_query_set {α β : Type} (modelName : String) (raw : List String)
    (underlying : α → Except PyExc β) (a : α) (st : ModState) :
    ModState × Except PyExc β :=
  let r := capture_call_stack modelName raw st
  match r.2 with
  | Except.ok _ => (r.1, underlying a)
  | Except.error e => (r.1, Except.error e)

/-- The `donottrack` decorator's `wrapper_func`: set `TRACK_FLAG = False`,
call `func(*args, **kwargs)` discarding its value, set `TRACK_FLAG = True`,
return `None` (modelled as `none`).  There is no `try/finally`: when the call
raises, the exception propagates with the state exactly as the call left it,
and neither the flag assignment nor the `None` return is reached. -/
def donottrack {α β : Type} (func : α → ModState → ModState × Except PyExc β)
    (a : α) (st : ModState) : ModState × Except PyExc (Option β) :=
  let stepped := func a { st with track_flag := false }
  match stepped.2 with
  | Except.ok _ => ({ stepped.1 with track_flag := true }, Except.ok none)
  | Except.error e => (stepped.1, Except.error e)

/-- Reading a ledger after a write: the written key reads back the written
value, every other key is untouched. -/
theorem bookGet_bookSet (b : Book) (c cq : String) (v : List Stack) :
    bookGet (bookSet b c v) cq = if cq = c then v else bookGet b cq := by
  induction b with
  | nil =>
      by_cases h : c = cq
      · subst h
        simp [bookGet, bookSet]
      · have hne : ¬cq = c := fun hh => h hh.symm
        simp [bookGet, bookSet, h, hne]
  | cons p t ih =>
      obtain ⟨k, w⟩ := p
      by_cases hk : k = c
      · subst hk
        by_cases h2 : k = cq
        · subst h2
          simp [bookGet, bookSet]
        · have hne2 : ¬cq = k := fun hh => h2 hh.symm
          simp [bookGet, bookSet, h2, hne2]
      · by_cases h2 : k = cq
        · subst h2
          simp [bookGet, bookSet, hk]
        · simp [bookGet, bookSet, hk, h2, ih]

/-- Recording an unseen stack appends it to the entry and reports it new. -/
theorem record_new (book : Book) (c : String) (s : Stack) (h : s ∉ bookGet book c) :
    record book c s = (true, bookSet book c (bookGet book c ++ [s])) := by
  simp [record, h]

/-- Recording an already-present stack leaves every entry's value unchanged
and reports it duplicate. -/
theorem record_dup (book : Book) (c : String) (s : Stack) (h : s ∈ bookGet book c) :
    record book c s = (false, bookSet book c (bookGet book c)) := by
  simp [record, h]

/-- A literal pattern body matches at the head exactly when the corresponding
characters occur verbatim at the head. -/
theorem patHere_lit (n l : List Char) :
    patHere (n.map PatChar.lit) l = isFrontOf n l := by
  induction n generalizing l with
  | nil => simp [patHere, isFrontOf]
  | cons a as ih =>
      cases l with
      | nil => simp [patHere, isFrontOf]
      | cons b bs => simp [patHere, isFrontOf, patCharMatches, ih]

/-- A literal pattern body matches somewhere exactly when the corresponding
characters occur verbatim somewhere. -/
theorem patSomewhere_lit (n l : List Char) :
    patSomewhere (n.map PatChar.lit) l = containsSubAux n l := by
  induction l with
  | nil => cases n <;> simp [patSomewhere, containsSubAux, patHere, List.isEmpty]
  | cons c cs ih => simp [patSomewhere, containsSubAux, patHere_lit, ih]

/-- Successful parsing of a list of frame lines parses each line in place:
the results are pointwise, in order, the parses of the inputs. -/
theorem parseFrames_forall2 (l : List String) (s : List Frame)
    (h : parseFrames l = some s) :
    List.Forall₂ (fun f fr => parseFrame f = some fr) l s := by
  induction l generalizing s with
  | nil =>
      simp [parseFrames] at h
      subst h
      exact List.Forall₂.nil
  | cons f t ih =>
      cases hp : parseFrame f with
      | none => simp [parseFrames, hp] at h
      | some fr =>
          cases hr : parseFrames t with
          | none => simp [parseFrames, hp, hr] at h
          | some rest =>
              simp [parseFrames, hp, hr] at h
              subst h
              exact List.Forall₂.cons hp (ih rest hr)

/-- Appending one unseen element to a duplicate-free list yields exactly one
occurrence of it. -/
theorem count_append_single (s : Stack) (l : List Stack) (h : s ∉ l) :
    (l ++ [s]).count s = 1 := by
  induction l with
  | nil => simp
  | cons x t ih =>
      simp only [List.mem_cons, not_or] at h
      simp [List.count_cons, ih h.2, Ne.symm h.1]

/-- C1: the claim says that with the Tracking Gate disabled,
`capture_call_stack` does nothing and leaves the Ledger unchanged.  The body
of `capture_call_stack` never consults `track_flag`: starting from a state
with the gate disabled and an empty ledger, capturing one ordinary frame line
normalizes it and appends a stack to the ledger all the same. -/
theorem c1_capture_ignores_disabled_gate :
    (capture_call_stack ("M") ["  File \"a.py\", line 42, in foo"]
        { track_flag := false, stack_book := [] }).1
      = { track_flag := false,
          stack_book := [(("M"), [[(("a.py"), ("2"), ("foo"))]])] } := by
  decide

/-- C2 counterexample: the claim says `TRACK_FLAG` is `True` after the wrapped
call even when it raises.  Wrapping a function that raises and running it from
an enabled state leaves the flag disabled: `wrapper_func` has no
`try/finally`, so the trailing `TRACK_FLAG = True` is never reached. -/
theorem c2_counterexample :
    (donottrack
        (fun (_ : Unit) (st : ModState) =>
          (st, (Except.error (PyExc.other 0) : Except PyExc Unit))) ()
        { track_flag := true, stack_book := [] }).1.track_flag = false := by
  decide

/-- C2 amended: the wrapper sets the flag to disabled and invokes the
function; it restores the flag to enabled and returns `None` only when the
function returns normally.  When the function raises, the failure propagates
with the state exactly as the wrapped call left it — the flag is not
restored. -/
theorem c2_flag_restored_only_on_normal_return {α β : Type}
    (func : α → ModState → ModState × Except PyExc β) (a : α) (st : ModState) :
    (∀ st2 b, func a { st with track_flag := false } = (st2, Except.ok b) →
        donottrack func a st = ({ st2 with track_flag := true }, Except.ok none)) ∧
    (∀ st2 e, func a { st with track_flag := false } = (st2, Except.error e) →
        donottrack func a st = (st2, Except.error e)) := by
  constructor
  · intro st2 b h
    simp [donottrack, h]
  · intro st2 e h
    simp [donottrack, h]

/-- C2 witness: the amended statement applied to a concrete raising function:
the error propagates and the final state still has the flag disabled. -/
theorem c2_amended_witness :
    ((fun (_ : Unit) (st : ModState) =>
        (st, (Except.error (PyExc.other 7) : Except PyExc Unit))) ()
      { track_flag := false, stack_book := [] }).2 = Except.error (PyExc.other 7) ∧
    donottrack
        (fun (_ : Unit) (st : ModState) =>
          (st, (Except.error (PyExc.other 7) : Except PyExc Unit))) ()
        { track_flag := true, stack_book := [] }
      = ({ track_flag := false, stack_book := [] }, Except.error (PyExc.other 7)) :=
  ⟨by decide,
   (c2_flag_restored_only_on_normal_return
      (fun (_ : Unit) (st : ModState) =>
        (st, (Except.error (PyExc.other 7) : Except PyExc Unit))) ()
      { track_flag := true, stack_book := [] }).2
     { track_flag := false, stack_book := [] } (PyExc.other 7) (by decide)⟩

/-- C9: on every normal return of the wrapped function, the `donottrack`
wrapper returns `None` (modelled `none`): the wrapped function's value is
discarded, never passed through. -/
theorem c9_wrapper_discards_return_value {α β : Type}
    (func : α → ModState → ModState × Except PyExc β) (a : α) (st st2 : ModState) (b : β)
    (h : func a { st with track_flag := false } = (st2, Except.ok b)) :
    (donottrack func a st).2 = Except.ok none := by
  simp [donottrack, h]

/-- C9 witness: a wrapped function returning the value `42` normally; the
wrapper's result is `none` anyway. -/
theorem c9_witness :
    (fun (_ : Unit) (st : ModState) => (st, (Except.ok 42 : Except PyExc Nat))) ()
        { track_flag := false, stack_book := [] }
      = ({ track_flag := false, stack_book := [] }, Except.ok 42) ∧
    (donottrack
        (fun (_ : Unit) (st : ModState) => (st, (Except.ok 42 : Except PyExc Nat))) ()
        { track_flag := true, stack_book := [] }).2 = Except.ok none :=
  ⟨by decide,
   c9_wrapper_discards_return_value
     (fun (_ : Unit) (st : ModState) => (st, (Except.ok 42 : Except PyExc Nat))) ()
     { track_flag := true, stack_book := [] }
     { track_flag := false, stack_book := [] } 42 (by decide)⟩

/-- C10: after any `donottrack`-wrapped call that returns normally, the flag
is `true` whatever its value before the call was — the wrapper restores to
enabled, not to the previous value, so an inner wrapped call completing inside
an enclosing suspended scope re-enables tracking for the rest of that scope. -/
theorem c10_flag_enabled_after_normal_return {α β : Type}
    (func : α → ModState → ModState × Except PyExc β) (a : α) (st st2 : ModState) (b : β)
    (h : func a { st with track_flag := false } = (st2, Except.ok b)) :
    (donottrack func a st).1.track_flag = true := by
  simp [donottrack, h]

/-- C10 witness: starting with the flag already disabled (as inside an
enclosing suspended scope), a wrapped call returning normally still ends with
the flag enabled. -/
theorem c10_witness :
    (fun (_ : Unit) (st : ModState) => (st, (Except.ok 0 : Except PyExc Nat))) ()
        { track_flag := false, stack_book := [] }
      = ({ track_flag := false, stack_book := [] }, Except.ok 0) ∧
    (donottrack
        (fun (_ : Unit) (st : ModState) => (st, (Except.ok 0 : Except PyExc Nat))) ()
        { track_flag := false, stack_book := [] }).1.track_flag = true :=
  ⟨by decide,
   c10_flag_enabled_after_normal_return
     (fun (_ : Unit) (st : ModState) => (st, (Except.ok 0 : Except PyExc Nat))) ()
     { track_flag := false, stack_book := [] }
     { track_flag := false, stack_book := [] } 0 (by decide)⟩

/-- C6: the claim says the parsed frame's second field is exactly the captured
line-number text.  On the fixed layout the file path and the context are
extracted exactly, but the line-number slice `strip()[6:]` drops six
characters after the five-character prelude, so the first character of the
number is lost: `line 42` yields `2`, and a single-digit `line 7` yields the
empty string. -/
theorem c6_line_number_first_char_dropped :
    parseFrame ("  File \"a.py\", line 42, in foo") = some (("a.py"), ("2"), ("foo")) ∧
    parseFrame ("  File \"b.py\", line 7, in g") = some (("b.py"), (""), ("g")) := by
  decide

/-- C3: idempotent dedup.  For every ledger, class identifier C and stack S
not yet inside C's entry, recording S twice reports new then duplicate and
leaves exactly one occurrence of S in C's entry; and the concrete chain
`record("Widget", [FrameA, FrameB])`, again, then `record("Widget", [FrameA])`
reports true, false, true and leaves the entry `[[FrameA, FrameB], [FrameA]]`. -/
theorem c3_record_idempotent_dedup :
    (∀ (book : Book) (C : String) (S : Stack), S ∉ bookGet book C →
       (record book C S).1 = true ∧
       (record (record book C S).2 C S).1 = false ∧
       bookGet (record (record book C S).2 C S).2 C = bookGet book C ++ [S] ∧
       (bookGet (record (record book C S).2 C S).2 C).count S = 1) ∧
    (let r1 := record ([] : Book) ("Widget") [(("a.py"), ("1"), ("f")), (("b.py"), ("2"), ("g"))]
     let r2 := record r1.2 ("Widget") [(("a.py"), ("1"), ("f")), (("b.py"), ("2"), ("g"))]
     let r3 := record r2.2 ("Widget") [(("a.py"), ("1"), ("f"))]
     r1.1 = true ∧ r2.1 = false ∧ r3.1 = true ∧
       bookGet r3.2 ("Widget")
         = [[(("a.py"), ("1"), ("f")), (("b.py"), ("2"), ("g"))], [(("a.py"), ("1"), ("f"))]]) := by
  constructor
  · intro book C S h
    have h1 : record book C S = (true, bookSet book C (bookGet book C ++ [S])) :=
      record_new book C S h
    have hb1 : bookGet (record book C S).2 C = bookGet book C ++ [S] := by
      rw [h1]
      simp [bookGet_bookSet]
    have hmem : S ∈ bookGet (record book C S).2 C := by
      rw [hb1]
      simp
    have h2 := record_dup (record book C S).2 C S hmem
    have hb2 : bookGet (record (record book C S).2 C S).2 C = bookGet book C ++ [S] := by
      rw [h2]
      simp [bookGet_bookSet, hb1]
    refine ⟨by rw [h1], by rw [h2], hb2, ?_⟩
    rw [hb2]
    exact count_append_single S (bookGet book C) h
  · decide

/-- C3 witness: the general part applied to the empty ledger, a concrete class
identifier and the empty stack. -/
theorem c3_witness :
    ([] : Stack) ∉ bookGet ([] : Book) ("X") ∧
    (record ([] : Book) ("X") ([] : Stack)).1 = true :=
  ⟨by decide, (c3_record_idempotent_dedup.1 ([] : Book) ("X") ([] : Stack) (by decide)).1⟩

/-- C4: ledger invariant.  When every entry of the ledger is duplicate-free,
then after any capture (recording or raising) every entry is still
duplicate-free, the captured class's entry is the old entry with zero or one
stack appended at the end (never reordered or shortened), and every other
entry is untouched. -/
theorem c4_ledger_invariant (modelName : String) (raw : List String) (st : ModState)
    (hinv : ∀ c, (bookGet st.stack_book c).Nodup) :
    (∀ c, (bookGet (capture_call_stack modelName raw st).1.stack_book c).Nodup) ∧
    (∃ t, bookGet (capture_call_stack modelName raw st).1.stack_book modelName
        = bookGet st.stack_book modelName ++ t) ∧
    (∀ c, c ≠ modelName →
        bookGet (capture_call_stack modelName raw st).1.stack_book c
          = bookGet st.stack_book c) := by
  cases hn : normalizeStack raw with
  | none =>
      refine ⟨?_, ⟨[], ?_⟩, ?_⟩ <;> simp [capture_call_stack, hn, hinv]
  | some s =>
      by_cases hm : s ∈ bookGet st.stack_book modelName
      · have hrec := record_dup st.stack_book modelName s hm
        simp only [capture_call_stack, hn, hrec]
        refine ⟨?_, ⟨[], ?_⟩, ?_⟩
        · intro c
          rw [bookGet_bookSet]
          by_cases hc : c = modelName <;> simp [hc, hinv]
        · rw [bookGet_bookSet]
          simp
        · intro c hc
          rw [bookGet_bookSet, if_neg hc]
      · have hrec := record_new st.stack_book modelName s hm
        simp only [capture_call_stack, hn, hrec]
        have hnodup : (bookGet st.stack_book modelName ++ [s]).Nodup := by
          rw [List.nodup_append]
          refine ⟨hinv modelName, List.nodup_singleton s, ?_⟩
          intro a ha hb
          rw [List.mem_singleton] at hb
          subst hb
          exact hm ha
        refine ⟨?_, ⟨[s], ?_⟩, ?_⟩
        · intro c
          rw [bookGet_bookSet]
          by_cases hc : c = modelName
          · simp [hc, hnodup]
          · simp [hc, hinv]
        · rw [bookGet_bookSet]
          simp
        · intro c hc
          rw [bookGet_bookSet, if_neg hc]

/-- C4 witness: the invariant-preservation applied to an empty ledger and a
concrete one-frame capture. -/
theorem c4_witness :
    (∀ c, (bookGet ([] : Book) c).Nodup) ∧
    (∀ c, (bookGet (capture_call_stack ("M") ["  File \"a.py\", line 42, in foo"]
        { track_flag := true, stack_book := [] }).1.stack_book c).Nodup) :=
  ⟨fun c => by simp [bookGet],
   (c4_ledger_invariant ("M") ["  File \"a.py\", line 42, in foo"]
      { track_flag := true, stack_book := [] } (fun c => by simp [bookGet])).1⟩

/-- C5: normalization.  A frame line carrying the tracer's own module name
`call_stack_manager` anywhere (in particular in its file path) is excluded;
on every successful normalization the kept raw lines are a sublist of the
cleaned raw lines (original relative order), none of the kept lines matches
an exclusion pattern, and the produced stack parses the kept lines pointwise
in order; a raw stack whose cleaned lines all match an exclusion pattern
normalizes to the empty stack; and the empty stack, when unseen for a class,
is recorded as new. -/
theorem c5_normalizer_filtering :
    (∀ f : String, containsSub ("call_stack_manager") f = true → excludedFrame f = true) ∧
    (∀ (raw : List String) (s : Stack), normalizeStack raw = some s →
       List.Sublist ((raw.map cleanFrame).filter (fun f => !excludedFrame f))
         (raw.map cleanFrame) ∧
       (∀ f ∈ (raw.map cleanFrame).filter (fun f => !excludedFrame f),
         excludedFrame f = false) ∧
       List.Forall₂ (fun f fr => parseFrame f = some fr)
         ((raw.map cleanFrame).filter (fun f => !excludedFrame f)) s) ∧
    (∀ raw : List String, (∀ f ∈ raw.map cleanFrame, excludedFrame f = true) →
       normalizeStack raw = some []) ∧
    (∀ (book : Book) (C : String), ([] : Stack) ∉ bookGet book C →
       (record book C ([] : Stack)).1 = true) := by
  refine ⟨?_, ?_, ?_, ?_⟩
  · intro f h
    simp only [containsSub] at h
    have hx : patSomewhere (litPat ("call_stack_manager")) f.toList = true := by
      simp only [litPat, patSomewhere_lit]
      exact h
    simp only [excludedFrame, REGULAR_EXPS, List.any_eq_true]
    exact ⟨litPat ("call_stack_manager"), by simp, hx⟩
  · intro raw s h
    refine ⟨List.filter_sublist _, ?_, ?_⟩
    · intro f hf
      rw [List.mem_filter] at hf
      simpa using hf.2
    · exact parseFrames_forall2 _ s h
  · intro raw h
    have hf : (raw.map cleanFrame).filter (fun f => !excludedFrame f) = [] := by
      rw [List.filter_eq_nil_iff]
      intro a ha
      simp [h a ha]
    rw [normalizeStack, hf]
    rfl
  · intro book C h
    simp [record, h]

/-- C5 witness: a frame line whose file path is the tracer's own module is
excluded. -/
theorem c5_witness :
    containsSub ("call_stack_manager") ("  File \"/openedx/core/lib/call_stack_manager.py\", line 70, in capture") = true ∧
    excludedFrame ("  File \"/openedx/core/lib/call_stack_manager.py\", line 70, in capture") = true :=
  ⟨by decide,
   c5_normalizer_filtering.1
     ("  File \"/openedx/core/lib/call_stack_manager.py\", line 70, in capture") (by decide)⟩

/-- C7 counterexample: the claim says a parse failure never propagates to the
wrapped operation.  Capturing a raw stack whose single non-excluded line has
no comma makes `capture_call_stack` raise `IndexError`, and the wrapped save
— whose underlying operation returns `7` — fails with that `IndexError`
instead of returning `7`; nothing catches, logs or drops the failure. -/
theorem c7_counterexample :
    (CallStackMixin.save ("M") ["stack with no commas"]
        (fun (_ : Unit) => (Except.ok 7 : Except PyExc Nat)) ()
        { track_flag := true, stack_book := [] }).2 = Except.error PyExc.indexError ∧
    (fun (_ : Unit) => (Except.ok 7 : Except PyExc Nat)) () = Except.ok 7 := by
  decide

/-- C7 amended: when normalization fails (a non-excluded line with fewer than
two commas), the `IndexError` propagates out of the capture and fails the
wrapped save/delete/query operation itself: the underlying operation is never
run, its result is replaced by the error, and the ledger is left unchanged. -/
theorem c7_parse_failure_fails_wrapped_op {α β : Type} (modelName : String)
    (raw : List String) (underlying : α → Except PyExc β) (a : α) (st : ModState)
    (h : normalizeStack raw = none) :
    CallStackMixin.save modelName raw underlying a st
      = (st, Except.error PyExc.indexError) ∧
    CallStackMixin.delete modelName raw underlying a st
      = (st, Except.error PyExc.indexError) ∧
    CallStackManager.get_query_set modelName raw underlying a st
      = (st, Except.error PyExc.indexError) := by
  refine ⟨?_, ?_, ?_⟩ <;>
    simp [CallStackMixin.save, CallStackMixin.delete, CallStackManager.get_query_set,
      capture_call_stack, h]

/-- C7 witness: the amended statement applied to a concrete malformed raw
stack and an underlying operation that would have returned `5`. -/
theorem c7_witness :
    normalizeStack ["frame without commas"] = none ∧
    CallStackMixin.save ("M") ["frame without commas"]
        (fun (_ : Unit) => (Except.ok 5 : Except PyExc Nat)) ()
        { track_flag := true, stack_book := [] }
      = ({ track_flag := true, stack_book := [] }, Except.error PyExc.indexError) :=
  ⟨by decide,
   (c7_parse_failure_fails_wrapped_op ("M") ["frame without commas"]
      (fun (_ : Unit) => (Except.ok 5 : Except PyExc Nat)) ()
      { track_flag := true, stack_book := [] } (by decide)).1⟩

/-- C8 counterexample: the claim says the adapters return exactly what the
unwrapped operation returns, for every input.  With a raw stack whose single
non-excluded line has no comma, the capture raises, and the adapter's result
differs from the unwrapped operation's result. -/
theorem c8_counterexample :
    (CallStackManager.get_query_set ("Q") ["another frameline lacking commas"]
        (fun (_ : Unit) => (Except.ok 3 : Except PyExc Nat)) ()
        { track_flag := true, stack_book := [] }).2
      ≠ (fun (_ : Unit) => (Except.ok 3 : Except PyExc Nat)) () := by
  decide

/-- C8 amended: whenever the capture step itself completes (normalization
succeeds), each adapter returns exactly the unwrapped operation's outcome —
the same value on success and the same failure on failure, since `underlying a`
ranges over both. -/
theorem c8_adapters_transparent_when_capture_succeeds {α β : Type} (modelName : String)
    (raw : List String) (underlying : α → Except PyExc β) (a : α) (st : ModState) (s : Stack)
    (h : normalizeStack raw = some s) :
    (CallStackMixin.save modelName raw underlying a st).2 = underlying a ∧
    (CallStackMixin.delete modelName raw underlying a st).2 = underlying a ∧
    (CallStackManager.get_query_set modelName raw underlying a st).2 = underlying a := by
  refine ⟨?_, ?_, ?_⟩ <;>
    simp [CallStackMixin.save, CallStackMixin.delete, CallStackManager.get_query_set,
      capture_call_stack, h]

/-- C8 witness: the amended transparency applied to an empty raw stack and a
failing underlying operation: the adapter propagates exactly that failure. -/
theorem c8_witness :
    normalizeStack [] = some [] ∧
    (CallStackMixin.save ("M") []
        (fun (_ : Unit) => (Except.error (PyExc.other 9) : Except PyExc Nat)) ()
        { track_flag := true, stack_book := [] }).2 = Except.error (PyExc.other 9) :=
  ⟨by decide,
   (c8_adapters_transparent_when_capture_succeeds ("M") []
      (fun (_ : Unit) => (Except.error (PyExc.other 9) : Except PyExc Nat)) ()
      { track_flag := true, stack_book := [] } [] (by decide)).1⟩
